import Mathlib

/-!
Verification of the build metadata store of coreos-assembler:
`src/cosalib/meta.py` (merge_meta, GenericMeta.get/set/write),
`src/cosalib/cmdlib.py` (merge_dicts, merge_lists, write_json, load_json)
and `src/cosalib/builds.py` (Builds.insert_build, get_latest,
get_build_dir, get_build_arches), shallowly embedded in Lean.

JSON documents are modelled by the inductive `JValue`; Python dicts become
association lists whose update semantics (`setKey`) mirrors CPython's
"update in place if the key exists, else append" insertion order.
-/

namespace Cosa

/-- A JSON value, as handled by the Python code (numbers restricted to the
integers actually used by the metadata: nanosecond stamps, sizes). -/
inductive JValue where
  | null : JValue
  | bool (b : Bool) : JValue
  | num (n : Int) : JValue
  | str (s : String) : JValue
  | arr (elems : List JValue) : JValue
  | obj (fields : List (String × JValue)) : JValue
  deriving Repr

/-- A JSON object: a Python dict as an ordered association list. -/
abbrev JObj := List (String × JValue)

/-- Python `d[k]` / `d.get(k)` lookup (dicts have unique keys; the first
occurrence is authoritative). -/
def lookupKey : JObj → String → Option JValue
  | [], _ => none
  | (k', v) :: rest, k => if k' = k then some v else lookupKey rest k

/-- Python `k in d`. -/
def keyMem (k : String) (m : JObj) : Bool :=
  match m with
  | [] => false
  | (k', _) :: rest => k' = k || keyMem k rest

/-- Python `d[k] = v`: overwrite in place when the key exists, else append
(CPython dict insertion-order semantics). -/
def setKey : JObj → String → JValue → JObj
  | [], k, v => [(k, v)]
  | (k', v') :: rest, k, v =>
    if k' = k then (k', v) :: rest else (k', v') :: setKey rest k v

mutual
/-- Python `==` on JSON values (structural; the documents handled here never
mix numeric types, so structural equality coincides with Python equality). -/
def beqVal : JValue → JValue → Bool
  | .null, .null => true
  | .bool a, .bool b => a == b
  | .num a, .num b => a == b
  | .str a, .str b => a == b
  | .arr a, .arr b => beqList a b
  | .obj a, .obj b => beqObj a b
  | _, _ => false

/-- Python `==` on JSON arrays. -/
def beqList : List JValue → List JValue → Bool
  | [], [] => true
  | a :: as_, b :: bs => beqVal a b && beqList as_ bs
  | _, _ => false

/-- Python `==` on JSON objects (dicts compare as key-value maps; the code
only ever compares documents built in matching order, so ordered comparison
is adequate for the values the program compares). -/
def beqObj : JObj → JObj → Bool
  | [], [] => true
  | (ka, va) :: as_, (kb, vb) :: bs => ka == kb && beqVal va vb && beqObj as_ bs
  | _, _ => false
end

/-- Python `==` on optional values (`d.get(k)` results; `None` equals only
`None`). -/
def beqOpt : Option JValue → Option JValue → Bool
  | none, none => true
  | some a, some b => beqVal a b
  | _, _ => false

/-- Python truthiness of a JSON value. -/
def truthy : JValue → Bool
  | .null => false
  | .bool b => b
  | .num n => n != 0
  | .str s => s != ""
  | .arr l => !l.isEmpty
  | .obj l => !l.isEmpty

def isObjV : JValue → Bool
  | .obj _ => true
  | _ => false

def isArrV : JValue → Bool
  | .arr _ => true
  | _ => false

/-- Python `i in l` (membership by `==`). -/
def listContains (l : List JValue) (v : JValue) : Bool :=
  l.any (fun w => beqVal w v)

/-- `cmdlib.merge_lists(x, y, k)`: `x[k].extend([i for i in y[k] if i not in
x[k]])`. The list comprehension is evaluated eagerly before `extend` runs,
so every element of `y[k]` is tested against the ORIGINAL `x[k]`: the
elements of `y[k]` not already in `x[k]` are appended in order (duplicates
within `y[k]` itself are kept). -/
def merge_lists (xa ya : List JValue) : List JValue :=
  xa ++ ya.filter (fun i => !(listContains xa i))

mutual
/-- `cmdlib.merge_dicts(x, y)`: iterate over `x`'s items then `y`'s items;
a key found in exactly one dict is copied; a key in both with two dict values
is merged recursively; with two list values `x`'s list is extended with
`y`'s novel elements; otherwise `x`'s value (the first dict) wins.
Iterating `x` then `y` makes the result hold `x`'s keys in `x`'s order
followed by `y`-only keys in `y`'s order. -/
def merge_dicts (x y : JObj) : JObj :=
  mergePassX x y ++ y.filter (fun p => !(keyMem p.1 x))

/-- The pass of `merge_dicts` over `x`'s items: each key keeps its place,
its value computed by `mergeEntry`. -/
def mergePassX : JObj → JObj → JObj
  | [], _ => []
  | (k, v) :: rest, y => (k, mergeEntry k v y) :: mergePassX rest y

/-- The body of `merge_dicts`'s loop for one item `(k, v)` of `x`:
a key only in `x` keeps `v`; a key in both dispatches on the two values. -/
def mergeEntry (k : String) (v : JValue) (y : JObj) : JValue :=
  if keyMem k y then mergeBoth v (lookupKey y k) else v

/-- A key present in both dicts: both values dicts → recursive merge; both
values lists → `merge_lists`; otherwise `x[k]` (the first dict) wins. -/
def mergeBoth : JValue → Option JValue → JValue
  | .obj xo, some (.obj yo) => .obj (merge_dicts xo yo)
  | .arr xa, some (.arr ya) => .arr (merge_lists xa ya)
  | v, _ => v
end

def COSA_VER_STAMP : String := "coreos-assembler.meta-stamp"
def COSA_DELAYED_MERGE : String := "coreos-assembler.delayed-meta-merge"
def cosa_git : String := "coreos-assembler.container-config-git"

/-- The fixed list iterated by the identity guard of `merge_meta`. -/
def identityFields : List String :=
  ["ostree-commit", "ostree-content-checksum",
   "coreos-assembler.image-config-checksum"]

/-- Errors raised by `merge_meta` / its callers.
`conflict`/`gitConflict` are `COSAMergeError`; `attrError` models the
`AttributeError` Python raises when `container-config-git` is bound to a
non-dict and `.get("commit")` is called on it; `typeError` models ordering
stamps that are not both numbers. -/
inductive MergeErr where
  | conflict (field : String) : MergeErr
  | gitConflict : MergeErr
  | attrError : MergeErr
  | typeError : MergeErr
  deriving Repr, DecidableEq

/-- Truthiness of `x.get(i, False)`: the value's truthiness when the key is
present, else the (falsy) default `False`. -/
def truthyGet (m : JObj) (k : String) : Bool :=
  match lookupKey m k with
  | some v => truthy v
  | none => false

/-- The `for i in [...]` loop of `merge_meta`'s identity guard:
`if x.get(i, False) and (x.get(i) != y.get(i)): raise COSAMergeError`. -/
def guardLoop : List String → JObj → JObj → Except MergeErr Unit
  | [], _, _ => .ok ()
  | i :: rest, x, y =>
    if truthyGet x i && !(beqOpt (lookupKey x i) (lookupKey y i)) then
      .error (.conflict i)
    else guardLoop rest x y

/-- `m.get(cosa_git, {}).get("commit")`; raises `AttributeError` when the
entry exists but is not a dict. -/
def gitCommit (m : JObj) : Except MergeErr (Option JValue) :=
  match lookupKey m cosa_git with
  | none => .ok none
  | some (.obj o) => .ok (lookupKey o "commit")
  | some _ => .error .attrError

/-- The whole identity guard of `merge_meta`: the three-field loop followed
by the `container-config-git.commit` check
(`if x_cosa and (x_cosa != y_cosa): raise COSAMergeError`). -/
def identityGuard (x y : JObj) : Except MergeErr Unit := do
  guardLoop identityFields x y
  let xc ← gitCommit x
  let yc ← gitCommit y
  if (match xc with
      | some v => truthy v && !(beqOpt (some v) yc)
      | none => false) then
    throw MergeErr.gitConflict
  else
    pure ()

/-- `meta.merge_meta(x, y)` with the call to `time.time_ns()` made explicit
as the argument `now`: run the identity guard; read both stamps with
default `0`; when the stamps are equal take `y` verbatim, otherwise
`merge_dicts` with the newer (higher-stamped) document as the first,
precedence-taking argument; finally restamp the result with `now`.
(A pair of stamps that are not both numbers cannot be ordered by the
metadata the program handles and is modelled as a type error.) -/
def mergeByStamp (x y : JObj) : Except MergeErr JObj :=
  let xs := (lookupKey x COSA_VER_STAMP).getD (.num 0)
  let ys := (lookupKey y COSA_VER_STAMP).getD (.num 0)
  if beqVal xs ys then
    pure y
  else
    match xs, ys with
    | .num a, .num b =>
      pure (if a > b then merge_dicts x y else merge_dicts y x)
    | _, _ => throw MergeErr.typeError

def merge_meta (x y : JObj) (now : Int) : Except MergeErr JObj := do
  identityGuard x y
  let ret ← mergeByStamp x y
  pure (setKey ret COSA_VER_STAMP (.num now))

/-! ## GenericMeta.get: nested descent -/

/-- Errors the descent of `GenericMeta.get` can raise: `keyError` for a key
absent from a dict, `typeError` for subscripting a non-dict with a string
key (Python raises `TypeError` when `haystack` is a string, a list indexed
by a string, a number, a bool or `None`). -/
inductive GetErr where
  | keyError : GetErr
  | typeError : GetErr
  deriving Repr, DecidableEq

/-- The `for arg in path: haystack = haystack[arg]` descent of
`GenericMeta.get`. -/
def descend : JValue → List String → Except GetErr JValue
  | v, [] => .ok v
  | .obj o, k :: rest =>
    match lookupKey o k with
    | some v => descend v rest
    | none => .error .keyError
  | _, _ :: _ => .error .typeError

/-- `GenericMeta.get(path, default)` for a list path: run the descent from
the top-level dict; `except KeyError: return default`; a `TypeError` is not
caught and propagates. -/
def metaGet (m : JObj) (path : List String) (default : Option JValue) :
    Except GetErr (Option JValue) :=
  match descend (.obj m) path with
  | .ok v => .ok (some v)
  | .error .keyError => .ok default
  | .error .typeError => .error .typeError

/-! ## GenericMeta.set: nested assignment through a shallow copy -/

/-- Errors `GenericMeta.set` can raise: `keyError` when `loc[p]` is absent,
`unable` for the final `raise Exception('Unable to set ...')` when the loop
exhausts the path without assigning. -/
inductive SetErr where
  | keyError : SetErr
  | unable : SetErr
  deriving Repr, DecidableEq

/-- The part of `GenericMeta.set`'s loop that runs after the first descent,
i.e. once `loc` aliases a dict nested inside the real document (so
assignments are visible in the document). Returns `some o'` when an
assignment happened (`break`), `none` when the loop exhausted the path
without assigning (`updated` stays `False`). -/
def setWalk (o : JObj) (path : List String) (v : JValue) :
    Except SetErr (Option JObj) :=
  match path with
  | [] => .ok none
  | k :: rest =>
    match lookupKey o k with
    | none => .error .keyError
    | some (.obj o') =>
      match setWalk o' rest v with
      | .ok (some o'') => .ok (some (setKey o k (.obj o'')))
      | .ok none => .ok none
      | .error e => .error e
    | some _ => .ok (some (setKey o k v))

/-- `GenericMeta.set(pathing, value)` for a list path, returning the
document as left behind by the call. A one-element path assigns at top
level. Longer paths run the loop on `loc = dict(self)` — a SHALLOW copy of
the top-level mapping: an assignment made during the first iteration lands
on the discarded copy (the document is unchanged), while after the first
descent `loc` aliases a nested dict of the document itself, so a later
assignment mutates the document. -/
def metaSet (m : JObj) (path : List String) (v : JValue) :
    Except SetErr JObj :=
  match path with
  | [] => .error .unable
  | [k] => .ok (setKey m k v)
  | k1 :: rest =>
    match lookupKey m k1 with
    | none => .error .keyError
    | some (.obj o1) =>
      match setWalk o1 rest v with
      | .ok (some o1') => .ok (setKey m k1 (.obj o1'))
      | .ok none => .error .unable
      | .error e => .error e
    | some _ => .ok m

/-! ## The builds index (`cosalib/builds.py`) -/

/-- One record of `builds.json`'s `builds` list. -/
structure BuildRecord where
  id : String
  arches : List String
  deriving Repr, DecidableEq

/-- `Builds.has(build_id)`. -/
def hasBuild (builds : List BuildRecord) (bid : String) : Bool :=
  builds.any (fun b => b.id == bid)

/-- `Builds.get_latest()`: `self._data['builds'][0]['id']`, raising
(`IndexError`) on an empty list. -/
def get_latest (builds : List BuildRecord) : Except String String :=
  match builds with
  | [] => .error "IndexError"
  | b :: _ => .ok b.id

/-- `Builds.get_build_arches(build_id)`: linear search; `assert False,
"Build not found!"` when no record matches. -/
def get_build_arches (builds : List BuildRecord) (bid : String) :
    Except String (List String) :=
  match builds with
  | [] => .error "Build not found!"
  | b :: rest =>
    if b.id = bid then .ok b.arches else get_build_arches rest bid

/-- `Builds.get_build_dir(build_id, basearch)`: resolve `"latest"` through
`get_latest`, then join `builds/<id>/<arch>` with NO membership check.
(`get_basearch()` is an external call; the architecture is passed in.) -/
def get_build_dir (builds : List BuildRecord) (bid : String)
    (basearch : String) : Except String String := do
  let bid' ← if bid = "latest" then get_latest builds else pure bid
  pure ("builds/" ++ bid' ++ "/" ++ basearch)

/-- The `for build in self._data['builds']: ... else: ...` loop of
`insert_build`: returns the updated list when a record with the id was
found (`break`), `none` when the loop fell through to `else`, and an error
when the arch already exists on the matching record. -/
def insertLoop (builds : List BuildRecord) (bid arch : String) :
    Except String (Option (List BuildRecord)) :=
  match builds with
  | [] => .ok none
  | b :: rest =>
    if b.id = bid then
      if arch ∈ b.arches then
        .error ("Build " ++ bid ++ " for " ++ arch ++ " already exists")
      else
        .ok (some ({ b with arches := b.arches ++ [arch] } :: rest))
    else
      (insertLoop rest bid arch).map (fun r => r.map (fun l => b :: l))

/-- `Builds.insert_build(build_id, basearch)`: add the arch to an existing
record for the id, or insert a brand-new record at position 0. -/
def insert_build (builds : List BuildRecord) (bid arch : String) :
    Except String (List BuildRecord) := do
  match (← insertLoop builds bid arch) with
  | some builds' => pure builds'
  | none => pure ({ id := bid, arches := [arch] } :: builds)

/-! ## Locked JSON I/O (`cmdlib.write_json`) and `GenericMeta.write` -/

/-- The shared filesystem: full path ↦ parsed JSON document. -/
abbrev FS := List (String × JObj)

def fsLookup : FS → String → Option JObj
  | [], _ => none
  | (p, d) :: rest, q => if p = q then some d else fsLookup rest q

def fsSet : FS → String → JObj → FS
  | [], p, d => [(p, d)]
  | (p', d') :: rest, p, d =>
    if p' = p then (p', d) :: rest else (p', d') :: fsSet rest p d

/-- Split a character list at every `'/'` (the char-level analogue of
`str.split("/")`, so that paths compute definitionally). -/
def splitOnSlash : List Char → List (List Char)
  | [] => [[]]
  | c :: rest =>
    let r := splitOnSlash rest
    if c = '/' then [] :: r
    else
      match r with
      | [] => [[c]]
      | h :: t => (c :: h) :: t

/-- Re-join path components with `'/'`. -/
def joinParts : List String → String
  | [] => ""
  | [x] => x
  | x :: rest => x ++ "/" ++ joinParts rest

/-- `os.path.dirname` for slash-separated relative paths: everything
before the last component. -/
def dirname (p : String) : String :=
  joinParts (((splitOnSlash p.data).map (fun cs => String.mk cs)).dropLast)

/-- `os.path.join(d, f)` for the relative shapes used here. -/
def joinpath (d f : String) : String :=
  if d = "" then f else d ++ "/" ++ f

/-- `cmdlib.write_json(path, data, merge_func)` under the lock: when a
merge function is supplied, re-read whatever is on disk (a missing file is
the empty document), merge the on-disk copy with (a copy of) the in-memory
data, and atomically persist the result; a raising merge function leaves
the filesystem untouched. Without a merge function the data is written
outright. -/
def write_json (fs : FS) (path : String) (data : JObj)
    (merge_func : Option (JObj → JObj → Except MergeErr JObj)) :
    Except MergeErr FS :=
  match merge_func with
  | none => .ok (fsSet fs path data)
  | some f => do
    let disk := (fsLookup fs path).getD []
    let merged ← f disk data
    pure (fsSet fs path merged)

/-- The in-process `GenericMeta` object: its `_meta_path` and its current
dict content. The jsonschema validator is passed separately as a predicate
(absence of a schema is the constantly-true predicate). -/
structure Meta where
  path : String
  doc : JObj
  deriving Repr

inductive WriteErr where
  | invalidMeta : WriteErr
  | mergeErr (e : MergeErr) : WriteErr
  | fileNotFound : WriteErr
  deriving Repr, DecidableEq

/-- `GenericMeta.read()`: clear, re-load the canonical path, validate. -/
def metaRead (m : Meta) (validator : JObj → Bool) (fs : FS) :
    Except WriteErr Meta :=
  match fsLookup fs m.path with
  | none => .error .fileNotFound
  | some d => if validator d then .ok { m with doc := d }
              else .error .invalidMeta

/-- `GenericMeta.write(artifact_name, merge_func=merge_meta, final)` with
the `time.time_ns()` calls made explicit as `now`. Validate first; with
delayed-merge enabled and `final` false, restamp the in-memory document and
write it (no merge function) to the side-file `meta.<artifact>.json` next
to the canonical path; otherwise write to the canonical path with
`merge_meta` as the merge function. Either way finish with `self.read()`
from the canonical path. The returned pair is (outcome, filesystem); on an
exception the filesystem holds whatever had been persisted before the
raise. On success the outcome carries the re-read object and the path
`write` returns. -/
def metaWrite (m : Meta) (validator : JObj → Bool) (fs : FS)
    (artifact_name : Option String) (final : Bool) (now : Int) :
    Except WriteErr (Meta × String) × FS :=
  if !(validator m.doc) then (.error .invalidMeta, fs)
  else
    let art := artifact_name.getD (toString now)
    if truthyGet m.doc COSA_DELAYED_MERGE && !final then
      let doc' := setKey m.doc COSA_VER_STAMP (.num now)
      let path := joinpath (dirname m.path) ("meta." ++ art ++ ".json")
      let fs' := fsSet fs path doc'
      match metaRead { m with doc := doc' } validator fs' with
      | .ok m' => (.ok (m', path), fs')
      | .error e => (.error e, fs')
    else
      match write_json fs m.path m.doc
          (some (fun a b => merge_meta a b now)) with
      | .error e => (.error (.mergeErr e), fs)
      | .ok fs' =>
        match metaRead m validator fs' with
        | .ok m' => (.ok (m', m.path), fs')
        | .error e => (.error e, fs')

/-- `COSAMergeError` discriminator: `conflict` and `gitConflict` are the
errors `merge_meta` raises itself; `attrError`/`typeError` are the Python
runtime errors of ill-typed documents. -/
def isCOSAMergeError : MergeErr → Bool
  | .conflict _ => true
  | .gitConflict => true
  | _ => false

/-- The four identity-defining fields of the guard. -/
inductive IdField where
  | ostree : IdField
  | content : IdField
  | imgcfg : IdField
  | git : IdField
  deriving Repr, DecidableEq

/-- What a document defines for an identity field: the flat lookup for the
first three, the nested `container-config-git.commit` for the fourth. -/
def idValue (m : JObj) : IdField → Except MergeErr (Option JValue)
  | .ostree => .ok (lookupKey m "ostree-commit")
  | .content => .ok (lookupKey m "ostree-content-checksum")
  | .imgcfg => .ok (lookupKey m "coreos-assembler.image-config-checksum")
  | .git => gitCommit m

def isOkE : Except ε α → Bool
  | .ok _ => true
  | .error _ => false

/-! ## Basic lemmas about the dict model -/

theorem lookupKey_setKey_self (m : JObj) (k : String) (v : JValue) :
    lookupKey (setKey m k v) k = some v := by
  induction m with
  | nil => simp [setKey, lookupKey]
  | cons p rest ih =>
    obtain ⟨k', v'⟩ := p
    by_cases h : k' = k <;> simp [setKey, lookupKey, h, ih]

theorem lookupKey_setKey_ne (m : JObj) (k k' : String) (v : JValue)
    (h : k' ≠ k) : lookupKey (setKey m k' v) k = lookupKey m k := by
  induction m with
  | nil => simp [setKey, lookupKey, h]
  | cons p rest ih =>
    obtain ⟨k'', v''⟩ := p
    by_cases h2 : k'' = k' <;> by_cases h3 : k'' = k <;>
      simp_all [setKey, lookupKey]

theorem keyMem_of_lookup {m : JObj} {k : String} {v : JValue}
    (h : lookupKey m k = some v) : keyMem k m = true := by
  induction m with
  | nil => simp [lookupKey] at h
  | cons p rest ih =>
    obtain ⟨k', v'⟩ := p
    by_cases h2 : k' = k <;> simp_all [lookupKey, keyMem]

theorem lookupKey_append (a b : JObj) (k : String) :
    lookupKey (a ++ b) k =
      match lookupKey a k with
      | some v => some v
      | none => lookupKey b k := by
  induction a with
  | nil => simp [lookupKey]
  | cons p rest ih =>
    obtain ⟨k', v'⟩ := p
    by_cases h : k' = k <;> simp [lookupKey, h, ih]

mutual
theorem beqVal_refl : ∀ v : JValue, beqVal v v = true
  | .null => rfl
  | .bool b => by simp [beqVal]
  | .num n => by simp [beqVal]
  | .str s => by simp [beqVal]
  | .arr l => by simpa [beqVal] using beqList_refl l
  | .obj l => by simpa [beqVal] using beqObj_refl l

theorem beqList_refl : ∀ l : List JValue, beqList l l = true
  | [] => rfl
  | v :: rest => by
    simp [beqList, beqVal_refl v, beqList_refl rest]

theorem beqObj_refl : ∀ l : JObj, beqObj l l = true
  | [] => rfl
  | (k, v) :: rest => by
    simp [beqObj, beqVal_refl v, beqObj_refl rest]
end

theorem beqOpt_refl (o : Option JValue) : beqOpt o o = true := by
  cases o with
  | none => rfl
  | some v => simpa [beqOpt] using beqVal_refl v

theorem fsLookup_fsSet_self (fs : FS) (p : String) (d : JObj) :
    fsLookup (fsSet fs p d) p = some d := by
  induction fs with
  | nil => simp [fsSet, fsLookup]
  | cons e rest ih =>
    obtain ⟨p', d'⟩ := e
    by_cases h : p' = p <;> simp [fsSet, fsLookup, h, ih]

theorem fsLookup_fsSet_ne (fs : FS) (p q : String) (d : JObj)
    (h : p ≠ q) : fsLookup (fsSet fs p d) q = fsLookup fs q := by
  induction fs with
  | nil => simp [fsSet, fsLookup, h]
  | cons e rest ih =>
    obtain ⟨p', d'⟩ := e
    by_cases h2 : p' = p <;> by_cases h3 : p' = q <;>
      simp_all [fsSet, fsLookup]

/-! ## Lemmas about merge_dicts -/

theorem lookupKey_mergePassX (x y : JObj) (k : String) (vx : JValue)
    (hx : lookupKey x k = some vx) :
    lookupKey (mergePassX x y) k = some (mergeEntry k vx y) := by
  induction x with
  | nil => simp [lookupKey] at hx
  | cons p rest ih =>
    obtain ⟨k', v'⟩ := p
    by_cases h : k' = k
    · subst h
      simp [lookupKey] at hx
      subst hx
      simp [mergePassX, lookupKey]
    · simp only [lookupKey, if_neg h] at hx
      simpa [mergePassX, lookupKey, h] using ih hx

theorem mergeBoth_scalar (vx vy : JValue)
    (hno : (isObjV vx && isObjV vy) = false)
    (hna : (isArrV vx && isArrV vy) = false) :
    mergeBoth vx (some vy) = vx := by
  cases vx <;> cases vy <;> simp_all [mergeBoth, isObjV, isArrV]

theorem mergeEntry_scalar (k : String) (vx vy : JValue) (y : JObj)
    (hy : lookupKey y k = some vy)
    (hno : (isObjV vx && isObjV vy) = false)
    (hna : (isArrV vx && isArrV vy) = false) :
    mergeEntry k vx y = vx := by
  rw [mergeEntry, if_pos (keyMem_of_lookup hy), hy]
  exact mergeBoth_scalar vx vy hno hna

/-- A key present in both dicts whose two values are neither both dicts nor
both lists comes out of `merge_dicts` with the FIRST dict's value. -/
theorem lookupKey_merge_dicts_scalar (x y : JObj) (k : String)
    (vx vy : JValue) (hx : lookupKey x k = some vx)
    (hy : lookupKey y k = some vy)
    (hno : (isObjV vx && isObjV vy) = false)
    (hna : (isArrV vx && isArrV vy) = false) :
    lookupKey (merge_dicts x y) k = some vx := by
  have h1 := lookupKey_mergePassX x y k vx hx
  rw [mergeEntry_scalar k vx vy y hy hno hna] at h1
  rw [merge_dicts, lookupKey_append, h1]

/-! ## Lemmas about the identity guard -/

theorem guardLoop_self (l : List String) (d : JObj) :
    guardLoop l d d = .ok () := by
  induction l with
  | nil => rfl
  | cons i rest ih => simp [guardLoop, beqOpt_refl, ih]

theorem identityGuard_self (d : JObj) (r : Option JValue)
    (h : gitCommit d = .ok r) : identityGuard d d = .ok () := by
  cases r <;>
    simp [identityGuard, guardLoop_self, h, beqOpt_refl, Bind.bind,
      Except.bind, pure, Except.pure]

theorem merge_meta_self (d : JObj) (r : Option JValue) (now : Int)
    (h : gitCommit d = .ok r) :
    merge_meta d d now = .ok (setKey d COSA_VER_STAMP (.num now)) := by
  simp [merge_meta, mergeByStamp, identityGuard_self d r h, beqVal_refl,
    Bind.bind, Except.bind, pure, Except.pure]

theorem guardLoop_fires {l : List String} {x y : JObj} {f : String}
    (hf : f ∈ l)
    (hcond : (truthyGet x f &&
      !(beqOpt (lookupKey x f) (lookupKey y f))) = true) :
    ∃ g, guardLoop l x y = .error (.conflict g) := by
  induction l with
  | nil => cases hf
  | cons i rest ih =>
    by_cases hc : (truthyGet x i &&
        !(beqOpt (lookupKey x i) (lookupKey y i))) = true
    · exact ⟨i, by simp [guardLoop, hc]⟩
    · have hfr : f ∈ rest := by
        rcases List.mem_cons.mp hf with h | h
        · exact absurd (h ▸ hcond) hc
        · exact h
      obtain ⟨g, hg⟩ := ih hfr
      exact ⟨g, by simp [guardLoop, hc, hg]⟩

theorem guardLoop_ok_or_conflict (l : List String) (x y : JObj) :
    guardLoop l x y = .ok () ∨
      ∃ g, guardLoop l x y = .error (.conflict g) := by
  induction l with
  | nil => exact .inl rfl
  | cons i rest ih =>
    by_cases hc : (truthyGet x i &&
        !(beqOpt (lookupKey x i) (lookupKey y i))) = true
    · exact .inr ⟨i, by simp [guardLoop, hc]⟩
    · rcases ih with h | ⟨g, hg⟩
      · exact .inl (by simp [guardLoop, hc, h])
      · exact .inr ⟨g, by simp [guardLoop, hc, hg]⟩

theorem identityGuard_error_of_loop {x y : JObj} {e : MergeErr}
    (h : guardLoop identityFields x y = .error e) :
    identityGuard x y = .error e := by
  simp [identityGuard, h, Bind.bind, Except.bind]

theorem merge_meta_error_of_guard {x y : JObj} {e : MergeErr} (now : Int)
    (h : identityGuard x y = .error e) :
    merge_meta x y now = .error e := by
  simp [merge_meta, h, Bind.bind, Except.bind]

theorem identityGuard_git_fires {x y : JObj} {vx : JValue}
    {yc : Option JValue}
    (hloop : guardLoop identityFields x y = .ok ())
    (hgx : gitCommit x = .ok (some vx)) (htr : truthy vx = true)
    (hgy : gitCommit y = .ok yc) (hne : beqOpt (some vx) yc = false) :
    identityGuard x y = .error .gitConflict := by
  simp [identityGuard, hloop, hgx, hgy, htr, hne, Bind.bind, Except.bind,
    throw, throwThe, MonadExceptOf.throw]

/-! ## Lemmas about merge_meta's stamp arbitration -/

theorem mergeByStamp_differ (x y : JObj) (a b : Int)
    (hsx : lookupKey x COSA_VER_STAMP = some (.num a))
    (hsy : lookupKey y COSA_VER_STAMP = some (.num b))
    (hne : a ≠ b) :
    mergeByStamp x y =
      .ok (if a > b then merge_dicts x y else merge_dicts y x) := by
  simp [mergeByStamp, hsx, hsy, beqVal, hne, pure, Except.pure]

theorem merge_meta_stamps_differ (x y : JObj) (a b now : Int)
    (hguard : identityGuard x y = .ok ())
    (hsx : lookupKey x COSA_VER_STAMP = some (.num a))
    (hsy : lookupKey y COSA_VER_STAMP = some (.num b))
    (hne : a ≠ b) :
    merge_meta x y now =
      .ok (setKey (if a > b then merge_dicts x y else merge_dicts y x)
        COSA_VER_STAMP (.num now)) := by
  simp [merge_meta, hguard, mergeByStamp_differ x y a b hsx hsy hne,
    Bind.bind, Except.bind, pure, Except.pure]

/-- Whenever `merge_meta` succeeds, the result's stamp is the `now` it was
re-stamped with. -/
theorem merge_meta_ok_stamp {x y : JObj} {now : Int} {r : JObj}
    (h : merge_meta x y now = .ok r) :
    lookupKey r COSA_VER_STAMP = some (.num now) := by
  unfold merge_meta at h
  cases hg : identityGuard x y with
  | error e =>
    rw [hg] at h
    simp [Bind.bind, Except.bind] at h
  | ok u =>
    cases u
    rw [hg] at h
    simp only [Bind.bind, Except.bind] at h
    cases hX : mergeByStamp x y with
    | error e =>
      rw [hX] at h
      simp at h
    | ok ret =>
      rw [hX] at h
      simp only [pure, Except.pure, Except.ok.injEq] at h
      subst h
      exact lookupKey_setKey_self ret COSA_VER_STAMP (.num now)

/-! ## Lemmas about the builds index -/

theorem insertLoop_not_found {builds : List BuildRecord} {bid arch : String}
    (h : hasBuild builds bid = false) :
    insertLoop builds bid arch = .ok none := by
  induction builds with
  | nil => rfl
  | cons b rest ih =>
    simp only [hasBuild, List.any_cons, Bool.or_eq_false_iff,
      beq_eq_false_iff_ne] at h
    simp [insertLoop, h.1, ih (by simp [hasBuild, h.2]), Except.map]

theorem get_build_arches_not_found {builds : List BuildRecord}
    {bid : String} (h : hasBuild builds bid = false) :
    get_build_arches builds bid = .error "Build not found!" := by
  induction builds with
  | nil => rfl
  | cons b rest ih =>
    simp only [hasBuild, List.any_cons, Bool.or_eq_false_iff,
      beq_eq_false_iff_ne] at h
    simp [get_build_arches, h.1, ih (by simp [hasBuild, h.2])]

/-! ## The claims -/

/-- **C5** (code_bug evidence): the docstring of `GenericMeta.get` promises
that, on the document `{'a': {'b': 'c'}}`, `get(['a','b','c','d'], 'nope')`
returns `'nope'`; the code instead raises `TypeError` — descending from the
string `'c'` subscripts a string with a string key, and only `KeyError` is
caught. -/
theorem get_docstring_example_raises_typeerror :
    metaGet [("a", .obj [("b", .str "c")])] ["a", "b", "c", "d"]
      (some (.str "nope")) = .error .typeError ∧
    metaGet [("a", .obj [("b", .str "c")])] ["a", "d"]
      (some (.str "nope")) = .ok (some (.str "nope")) :=
  ⟨rfl, rfl⟩

/-- **C6**: a document rejected by the schema validator makes `write()`
raise the validation error before anything touches the filesystem: the
outcome is the error and the returned filesystem is exactly the input
filesystem. -/
theorem write_invalid_meta_aborts_before_persisting
    (m : Meta) (validator : JObj → Bool) (fs : FS)
    (artifact_name : Option String) (final : Bool) (now : Int)
    (h : validator m.doc = false) :
    metaWrite m validator fs artifact_name final now =
      (.error .invalidMeta, fs) := by
  simp [metaWrite, h]

theorem write_invalid_meta_aborts_before_persisting_witness :
    (fun _ : JObj => false) [("x", JValue.num 1)] = false ∧
    metaWrite ⟨"builds/1.2.3/x86_64/meta.json", [("x", JValue.num 1)]⟩
      (fun _ => false) [("builds/1.2.3/x86_64/meta.json", [])] none false 3 =
      (.error .invalidMeta, [("builds/1.2.3/x86_64/meta.json", [])]) :=
  ⟨rfl, write_invalid_meta_aborts_before_persisting
    ⟨"builds/1.2.3/x86_64/meta.json", [("x", JValue.num 1)]⟩
    (fun _ => false) [("builds/1.2.3/x86_64/meta.json", [])] none false 3 rfl⟩

/-- **C7**: inserting a build id not yet present into a non-empty index
puts the brand-new record at position 0, and `get_latest()` then returns
that id. -/
theorem insert_build_new_id_front_latest
    (builds : List BuildRecord) (b0 : BuildRecord)
    (rest : List BuildRecord) (bid arch : String)
    (_hfirst : builds = b0 :: rest)
    (hnew : hasBuild builds bid = false) :
    insert_build builds bid arch =
      .ok ({ id := bid, arches := [arch] } :: builds) ∧
    get_latest ({ id := bid, arches := [arch] } :: builds) = .ok bid := by
  constructor
  · simp [insert_build, insertLoop_not_found hnew, Bind.bind, Except.bind,
      pure, Except.pure]
  · rfl

theorem insert_build_new_id_front_latest_witness :
    insert_build [⟨"A", ["x86_64"]⟩] "B" "x86_64" =
      .ok [⟨"B", ["x86_64"]⟩, ⟨"A", ["x86_64"]⟩] ∧
    get_latest [⟨"B", ["x86_64"]⟩, ⟨"A", ["x86_64"]⟩] = .ok "B" :=
  insert_build_new_id_front_latest [⟨"A", ["x86_64"]⟩] ⟨"A", ["x86_64"]⟩ []
    "B" "x86_64" rfl (by decide)

/-- **C8** (counterexample): `get_build_dir` called with the unknown,
non-"latest" id "B" on an index holding only "A" does NOT raise — it
returns the joined path `builds/B/x86_64`. -/
theorem get_build_dir_unknown_id_returns_path_cex :
    hasBuild [⟨"A", ["x86_64"]⟩] "B" = false ∧
    "B" ≠ "latest" ∧
    get_build_dir [⟨"A", ["x86_64"]⟩] "B" "x86_64" =
      .ok "builds/B/x86_64" :=
  ⟨by decide, by decide, rfl⟩

/-- **C8** (amended): `get_build_dir` performs no membership check — for
any non-"latest" id, known or not, it returns `builds/<id>/<arch>`; the
immediate failure on an unknown id belongs to `get_build_arches`, whose
search falls through to `assert False, "Build not found!"`. -/
theorem build_index_unknown_id_behaviour
    (builds : List BuildRecord) (bid arch : String)
    (hlat : bid ≠ "latest") (hmem : hasBuild builds bid = false) :
    get_build_dir builds bid arch =
      .ok ("builds/" ++ bid ++ "/" ++ arch) ∧
    get_build_arches builds bid = .error "Build not found!" := by
  constructor
  · simp [get_build_dir, hlat, Bind.bind, Except.bind, pure, Except.pure]
  · exact get_build_arches_not_found hmem

theorem build_index_unknown_id_behaviour_witness :
    get_build_dir [⟨"A", ["x86_64"]⟩] "C" "aarch64" =
      .ok ("builds/" ++ "C" ++ "/" ++ "aarch64") ∧
    get_build_arches [⟨"A", ["x86_64"]⟩] "C" = .error "Build not found!" :=
  build_index_unknown_id_behaviour [⟨"A", ["x86_64"]⟩] "C" "aarch64"
    (by decide) (by decide)

/-- **C10**: `set(path, value)` with a multi-element path whose first key
is bound to a non-dict returns without raising and leaves the document
entirely unchanged — the assignment lands on the discarded shallow copy
`loc = dict(self)`. -/
theorem set_nonnested_multikey_noop
    (m : JObj) (k1 k2 : String) (rest : List String) (v val : JValue)
    (hk : lookupKey m k1 = some val) (hno : isObjV val = false) :
    metaSet m (k1 :: k2 :: rest) v = .ok m := by
  cases val <;> simp_all [metaSet, isObjV]

theorem set_nonnested_multikey_noop_witness :
    metaSet [("a", .str "b"), ("c", .num 1)] ["a", "x"] (.num 9) =
      .ok [("a", .str "b"), ("c", .num 1)] :=
  set_nonnested_multikey_noop [("a", .str "b"), ("c", .num 1)] "a" "x" []
    (.num 9) (.str "b") rfl rfl

/-- On-disk document of the stamp-precedence scenario: stamp 2, scalar
`"a" = "hi"`. -/
def c1x : JObj := [(COSA_VER_STAMP, .num 2), ("a", .str "hi")]

/-- In-memory document of the stamp-precedence scenario: stamp 1 (the
LOWER stamp — the "base"), scalar `"a" = "lo"`. -/
def c1y : JObj := [(COSA_VER_STAMP, .num 1), ("a", .str "lo")]

/-- **C1** (counterexample): both documents carry the scalar key `"a"`,
their stamps differ (2 vs 1), the identity guard passes — yet the merged
result holds the HIGHER-stamped document's value `"hi"`, not the
lower-stamped "base" value `"lo"` the claim requires: `merge_dicts` gives
precedence to its FIRST argument and `merge_meta` passes the newer
document first. -/
theorem merge_meta_lower_stamp_loses_cex :
    lookupKey c1x "a" = some (.str "hi") ∧
    lookupKey c1y "a" = some (.str "lo") ∧
    merge_meta c1x c1y 10 =
      .ok [(COSA_VER_STAMP, .num 10), ("a", .str "hi")] ∧
    ((JValue.str "hi") = .str "lo" → False) := by
  refine ⟨rfl, rfl, ?_, by simp⟩
  simp [merge_meta, mergeByStamp, identityGuard, guardLoop, identityFields,
    gitCommit, cosa_git, truthyGet, lookupKey, beqOpt, beqVal,
    COSA_VER_STAMP, merge_dicts, mergePassX, mergeEntry, mergeBoth, keyMem,
    setKey, c1x, c1y, Bind.bind, Except.bind, pure, Except.pure]

/-- **C1** (amended): when the stamps differ and the identity guard
passes, for every key present in both documents whose two values are
neither both nested objects nor both sequences, it is the HIGHER-stamped
document's value that appears in the merged result (the lower-stamped
"base" value is overwritten). -/
theorem merge_meta_higher_stamp_wins_scalars
    (x y : JObj) (k : String) (vx vy : JValue) (a b now : Int)
    (hguard : identityGuard x y = .ok ())
    (hsx : lookupKey x COSA_VER_STAMP = some (.num a))
    (hsy : lookupKey y COSA_VER_STAMP = some (.num b))
    (hne : a ≠ b) (hk : k ≠ COSA_VER_STAMP)
    (hx : lookupKey x k = some vx) (hy : lookupKey y k = some vy)
    (hno : (isObjV vx && isObjV vy) = false)
    (hna : (isArrV vx && isArrV vy) = false) :
    ∃ r, merge_meta x y now = .ok r ∧
      lookupKey r k = some (if a > b then vx else vy) := by
  refine ⟨_, merge_meta_stamps_differ x y a b now hguard hsx hsy hne, ?_⟩
  rw [lookupKey_setKey_ne _ k COSA_VER_STAMP _ (Ne.symm hk)]
  by_cases hab : a > b
  · simp only [if_pos hab]
    exact lookupKey_merge_dicts_scalar x y k vx vy hx hy hno hna
  · simp only [if_neg hab]
    exact lookupKey_merge_dicts_scalar y x k vy vx hy hx
      (by rwa [Bool.and_comm] at hno) (by rwa [Bool.and_comm] at hna)

theorem merge_meta_higher_stamp_wins_scalars_witness :
    ∃ r, merge_meta c1x c1y 10 = .ok r ∧
      lookupKey r "a" =
        some (if (2 : Int) > 1 then .str "hi" else .str "lo") :=
  merge_meta_higher_stamp_wins_scalars c1x c1y "a" (.str "hi") (.str "lo")
    2 1 10
    (by simp [identityGuard, guardLoop, identityFields, gitCommit,
      cosa_git, truthyGet, lookupKey, beqOpt, beqVal, c1x, c1y,
      COSA_VER_STAMP, Bind.bind, Except.bind, pure, Except.pure])
    rfl rfl (by decide) (by decide) rfl rfl rfl rfl

/-- Document with stamp 5 merged at a clock reading of 0. -/
def c4x : JObj := [(COSA_VER_STAMP, .num 5)]

/-- **C4** (counterexample): `merge_meta` re-stamps the result with the
current clock reading, not with anything derived from the inputs' stamps;
merging a stamp-5 document with an unstamped one while the clock reads 0
yields a result stamped 0, which is NOT strictly greater than
`max(5, 0) = 5`. -/
theorem merge_stamp_not_monotonic_cex :
    merge_meta c4x [] 0 = .ok [(COSA_VER_STAMP, .num 0)] ∧
    ¬((0 : Int) > max 5 0) := by
  constructor
  · simp [merge_meta, mergeByStamp, identityGuard, guardLoop,
      identityFields, gitCommit, cosa_git, truthyGet, lookupKey, beqOpt,
      beqVal, COSA_VER_STAMP, merge_dicts, mergePassX, mergeEntry,
      mergeBoth, keyMem, setKey, c4x, Bind.bind, Except.bind, pure,
      Except.pure]
  · decide

/-- **C4** (amended): whenever `merge_meta(x, y)` succeeds, the result's
stamp is exactly the clock reading `now` taken during the merge; it is
therefore strictly greater than `max(x.stamp, y.stamp)` precisely when
that clock reading is — which the code does not otherwise enforce. -/
theorem merge_meta_restamps_with_clock
    (x y r : JObj) (a b now : Int)
    (h : merge_meta x y now = .ok r)
    (_hsx : (lookupKey x COSA_VER_STAMP).getD (.num 0) = .num a)
    (_hsy : (lookupKey y COSA_VER_STAMP).getD (.num 0) = .num b)
    (hnow : max a b < now) :
    ∃ s, lookupKey r COSA_VER_STAMP = some (.num s) ∧ max a b < s :=
  ⟨now, merge_meta_ok_stamp h, hnow⟩

theorem merge_meta_restamps_with_clock_witness :
    ∃ s, lookupKey [(COSA_VER_STAMP, JValue.num 10), ("a", JValue.str "hi")]
        COSA_VER_STAMP = some (.num s) ∧ max 2 1 < s :=
  merge_meta_restamps_with_clock c1x c1y
    [(COSA_VER_STAMP, .num 10), ("a", .str "hi")] 2 1 10
    (by simp [merge_meta, mergeByStamp, identityGuard, guardLoop,
      identityFields, gitCommit, cosa_git, truthyGet, lookupKey, beqOpt,
      beqVal, COSA_VER_STAMP, merge_dicts, mergePassX, mergeEntry,
      mergeBoth, keyMem, setKey, c1x, c1y, Bind.bind, Except.bind, pure,
      Except.pure])
    rfl rfl (by decide)

/-- On-disk document defining `ostree-commit` with a FALSY value. -/
def c3x : JObj := [("ostree-commit", .str "")]

/-- In-memory document defining `ostree-commit` with a different value. -/
def c3y : JObj := [("ostree-commit", .str "abc")]

/-- **C3** (counterexample): both documents define the identity field
`ostree-commit` and their values differ (`""` vs `"abc"`), yet `merge_meta`
does NOT raise — the guard's condition `x.get(i, False) and ...` is skipped
whenever `x`'s value is falsy, and the merge completes normally. -/
theorem identity_conflict_falsy_cex :
    lookupKey c3x "ostree-commit" = some (.str "") ∧
    lookupKey c3y "ostree-commit" = some (.str "abc") ∧
    beqVal (.str "") (.str "abc") = false ∧
    merge_meta c3x c3y 7 =
      .ok [("ostree-commit", .str "abc"), (COSA_VER_STAMP, .num 7)] := by
  refine ⟨rfl, rfl, by simp [beqVal], ?_⟩
  simp [merge_meta, mergeByStamp, identityGuard, guardLoop, identityFields,
    gitCommit, cosa_git, truthyGet, truthy, lookupKey, beqOpt, beqVal,
    COSA_VER_STAMP, setKey, c3x, c3y, Bind.bind, Except.bind, pure,
    Except.pure]

/-- **C3** (amended): for every identity-defining field (the three flat
fields and `container-config-git.commit`), if both documents define the
field, the on-disk document's value is TRUTHY, and the two values differ,
then `merge_meta` raises a merge-conflict error (`COSAMergeError`), and a
`write()` going through the canonical merge path returns that error with
the filesystem exactly as it was — nothing is persisted. -/
theorem identity_conflict_aborts_merge_and_write
    (x y : JObj) (f : IdField) (vx vy : JValue) (now : Int)
    (hx : idValue x f = .ok (some vx)) (hy : idValue y f = .ok (some vy))
    (htr : truthy vx = true) (hne : beqVal vx vy = false) :
    (∃ e, merge_meta x y now = .error e ∧ isCOSAMergeError e = true) ∧
    (∀ (m : Meta) (validator : JObj → Bool) (fs : FS)
       (art : Option String) (fin : Bool),
       m.doc = y → fsLookup fs m.path = some x →
       (truthyGet y COSA_DELAYED_MERGE && !fin) = false →
       (metaWrite m validator fs art fin now).2 = fs ∧
         ∃ w, (metaWrite m validator fs art fin now).1 = .error w) := by
  have hmain : ∃ e, merge_meta x y now = .error e ∧
      isCOSAMergeError e = true := by
    cases f with
    | ostree =>
      simp only [idValue, Except.ok.injEq] at hx hy
      have hcond : (truthyGet x "ostree-commit" &&
          !(beqOpt (lookupKey x "ostree-commit")
            (lookupKey y "ostree-commit"))) = true := by
        simp [truthyGet, hx, hy, htr, beqOpt, hne]
      obtain ⟨g, hg⟩ := guardLoop_fires (l := identityFields)
        (by simp [identityFields]) hcond
      exact ⟨.conflict g,
        merge_meta_error_of_guard now (identityGuard_error_of_loop hg), rfl⟩
    | content =>
      simp only [idValue, Except.ok.injEq] at hx hy
      have hcond : (truthyGet x "ostree-content-checksum" &&
          !(beqOpt (lookupKey x "ostree-content-checksum")
            (lookupKey y "ostree-content-checksum"))) = true := by
        simp [truthyGet, hx, hy, htr, beqOpt, hne]
      obtain ⟨g, hg⟩ := guardLoop_fires (l := identityFields)
        (by simp [identityFields]) hcond
      exact ⟨.conflict g,
        merge_meta_error_of_guard now (identityGuard_error_of_loop hg), rfl⟩
    | imgcfg =>
      simp only [idValue, Except.ok.injEq] at hx hy
      have hcond : (truthyGet x "coreos-assembler.image-config-checksum" &&
          !(beqOpt (lookupKey x "coreos-assembler.image-config-checksum")
            (lookupKey y "coreos-assembler.image-config-checksum"))) =
          true := by
        simp [truthyGet, hx, hy, htr, beqOpt, hne]
      obtain ⟨g, hg⟩ := guardLoop_fires (l := identityFields)
        (by simp [identityFields]) hcond
      exact ⟨.conflict g,
        merge_meta_error_of_guard now (identityGuard_error_of_loop hg), rfl⟩
    | git =>
      simp only [idValue] at hx hy
      rcases guardLoop_ok_or_conflict identityFields x y with hok | ⟨g, hg⟩
      · exact ⟨.gitConflict, merge_meta_error_of_guard now
          (identityGuard_git_fires hok hx htr hy
            (by simp [beqOpt, hne])), rfl⟩
      · exact ⟨.conflict g,
          merge_meta_error_of_guard now (identityGuard_error_of_loop hg),
          rfl⟩
  refine ⟨hmain, ?_⟩
  intro m validator fs art fin hdoc hdisk hbranch
  obtain ⟨e, he, _⟩ := hmain
  by_cases hv : validator m.doc = true
  · have hred : metaWrite m validator fs art fin now =
        (.error (.mergeErr e), fs) := by
      rw [metaWrite, if_neg (by simp [hv])]
      rw [if_neg (by rw [hdoc]; simp [hbranch])]
      have : write_json fs m.path m.doc
          (some (fun a b => merge_meta a b now)) = .error e := by
        simp [write_json, hdisk, hdoc, he, Bind.bind, Except.bind]
      rw [this]
    rw [hred]
    exact ⟨rfl, .mergeErr e, rfl⟩
  · have hred : metaWrite m validator fs art fin now =
        (.error .invalidMeta, fs) := by
      simp at hv
      simp [metaWrite, hv]
    rw [hred]
    exact ⟨rfl, .invalidMeta, rfl⟩

theorem identity_conflict_aborts_merge_and_write_witness :
    (∃ e, merge_meta [("ostree-commit", JValue.str "sha1")]
        [("ostree-commit", JValue.str "sha2")] 4 = .error e ∧
        isCOSAMergeError e = true) ∧
    (∀ (m : Meta) (validator : JObj → Bool) (fs : FS)
       (art : Option String) (fin : Bool),
       m.doc = [("ostree-commit", JValue.str "sha2")] →
       fsLookup fs m.path = some [("ostree-commit", JValue.str "sha1")] →
       (truthyGet [("ostree-commit", JValue.str "sha2")]
         COSA_DELAYED_MERGE && !fin) = false →
       (metaWrite m validator fs art fin 4).2 = fs ∧
         ∃ w, (metaWrite m validator fs art fin 4).1 = .error w) :=
  identity_conflict_aborts_merge_and_write
    [("ostree-commit", .str "sha1")] [("ostree-commit", .str "sha2")]
    .ostree (.str "sha1") (.str "sha2") 4 rfl rfl rfl (by simp [beqVal])

/-- **C9**: the identity guard is asymmetric. If the on-disk document `x`
defines an identity field with a truthy value that the in-memory document
`y` omits, `merge_meta` raises a merge-conflict error; if instead only `y`
defines the field and `x` omits every identity field, no conflict fires
and the merge proceeds to a successful result (given numeric stamps and a
well-formed `container-config-git` entry on `y`). -/
theorem identity_guard_asymmetric
    (x y : JObj) (f : IdField) (vx : JValue) (a b now : Int) :
    (idValue x f = .ok (some vx) → truthy vx = true →
      idValue y f = .ok none →
      ∃ e, merge_meta x y now = .error e ∧ isCOSAMergeError e = true) ∧
    ((∀ g, idValue x g = .ok none) → (∃ yc, gitCommit y = .ok yc) →
      (lookupKey x COSA_VER_STAMP).getD (.num 0) = .num a →
      (lookupKey y COSA_VER_STAMP).getD (.num 0) = .num b →
      ∃ r, merge_meta x y now = .ok r) := by
  constructor
  · intro hx htr hy
    cases f with
    | ostree =>
      simp only [idValue, Except.ok.injEq] at hx hy
      have hcond : (truthyGet x "ostree-commit" &&
          !(beqOpt (lookupKey x "ostree-commit")
            (lookupKey y "ostree-commit"))) = true := by
        simp [truthyGet, hx, hy, htr, beqOpt]
      obtain ⟨g, hg⟩ := guardLoop_fires (l := identityFields)
        (by simp [identityFields]) hcond
      exact ⟨.conflict g,
        merge_meta_error_of_guard now (identityGuard_error_of_loop hg), rfl⟩
    | content =>
      simp only [idValue, Except.ok.injEq] at hx hy
      have hcond : (truthyGet x "ostree-content-checksum" &&
          !(beqOpt (lookupKey x "ostree-content-checksum")
            (lookupKey y "ostree-content-checksum"))) = true := by
        simp [truthyGet, hx, hy, htr, beqOpt]
      obtain ⟨g, hg⟩ := guardLoop_fires (l := identityFields)
        (by simp [identityFields]) hcond
      exact ⟨.conflict g,
        merge_meta_error_of_guard now (identityGuard_error_of_loop hg), rfl⟩
    | imgcfg =>
      simp only [idValue, Except.ok.injEq] at hx hy
      have hcond : (truthyGet x "coreos-assembler.image-config-checksum" &&
          !(beqOpt (lookupKey x "coreos-assembler.image-config-checksum")
            (lookupKey y "coreos-assembler.image-config-checksum"))) =
          true := by
        simp [truthyGet, hx, hy, htr, beqOpt]
      obtain ⟨g, hg⟩ := guardLoop_fires (l := identityFields)
        (by simp [identityFields]) hcond
      exact ⟨.conflict g,
        merge_meta_error_of_guard now (identityGuard_error_of_loop hg), rfl⟩
    | git =>
      simp only [idValue] at hx hy
      rcases guardLoop_ok_or_conflict identityFields x y with hok | ⟨g, hg⟩
      · exact ⟨.gitConflict, merge_meta_error_of_guard now
          (identityGuard_git_fires hok hx htr hy (by simp [beqOpt])), rfl⟩
      · exact ⟨.conflict g,
          merge_meta_error_of_guard now (identityGuard_error_of_loop hg),
          rfl⟩
  · intro hxo hgy hsa hsb
    have h1 := hxo .ostree
    have h2 := hxo .content
    have h3 := hxo .imgcfg
    have h4 := hxo .git
    simp only [idValue, Except.ok.injEq] at h1 h2 h3 h4
    have hloop : guardLoop identityFields x y = .ok () := by
      simp [guardLoop, identityFields, truthyGet, h1, h2, h3]
    obtain ⟨yc, hyc⟩ := hgy
    have hguard : identityGuard x y = .ok () := by
      simp [identityGuard, hloop, h4, hyc, Bind.bind, Except.bind, pure,
        Except.pure]
    have hret : ∃ ret, mergeByStamp x y = .ok ret := by
      simp only [mergeByStamp, hsa, hsb, beqVal]
      by_cases hab : a = b
      · simp [hab, pure, Except.pure]
      · simp [hab, pure, Except.pure]
    obtain ⟨ret, hret⟩ := hret
    exact ⟨setKey ret COSA_VER_STAMP (.num now),
      by simp [merge_meta, hguard, hret, Bind.bind, Except.bind, pure,
        Except.pure]⟩

theorem identity_guard_asymmetric_witness :
    (∃ e, merge_meta [("ostree-commit", JValue.str "abc")] [] 3 =
        .error e ∧ isCOSAMergeError e = true) ∧
    (∃ r, merge_meta [] [("ostree-commit", JValue.str "abc")] 3 =
        .ok r) :=
  ⟨(identity_guard_asymmetric [("ostree-commit", .str "abc")] [] .ostree
      (.str "abc") 0 0 3).1 rfl (by simp [truthy]) rfl,
   (identity_guard_asymmetric [] [("ostree-commit", .str "abc")] .ostree
      (.str "abc") 0 0 3).2 (fun g => by cases g <;> rfl) ⟨none, rfl⟩
      rfl rfl⟩

/-! ## The delayed-merge write protocol -/

/-- A delayed-merge staging write: with the flag truthy and `final` false,
`write(artifact_name=art)` re-stamps the in-memory document, writes it
(without any merge function) to `meta.<art>.json` beside the canonical
path, and re-reads the object from the UNTOUCHED canonical file. -/
theorem metaWrite_staging (canon side : String) (staged d0 : JObj)
    (fs : FS) (validator : JObj → Bool) (art : String) (now : Int)
    (hside : joinpath (dirname canon) ("meta." ++ art ++ ".json") = side)
    (hnc : side ≠ canon)
    (hdel : truthyGet staged COSA_DELAYED_MERGE = true)
    (hv1 : validator staged = true)
    (hdisk : fsLookup fs canon = some d0)
    (hv0 : validator d0 = true) :
    metaWrite ⟨canon, staged⟩ validator fs (some art) false now =
      (.ok (⟨canon, d0⟩, side),
        fsSet fs side (setKey staged COSA_VER_STAMP (.num now))) := by
  have hlk : fsLookup
      (fsSet fs side (setKey staged COSA_VER_STAMP (.num now))) canon =
      some d0 := by
    rw [fsLookup_fsSet_ne fs side canon _ hnc, hdisk]
  simp [metaWrite, metaRead, hv1, hdel, hside, hlk, hv0]

/-- A canonical (`final=True` or non-delayed) write whose in-memory
document equals the document on disk: the merge takes the in-memory copy
verbatim (equal stamps) and just re-stamps it with `now`. -/
theorem metaWrite_final (canon : String) (d0 : JObj) (fs1 : FS)
    (validator : JObj → Bool) (art2 : Option String) (gc : Option JValue)
    (now : Int)
    (hdisk : fsLookup fs1 canon = some d0)
    (hv0 : validator d0 = true)
    (hgit : gitCommit d0 = .ok gc)
    (hv2 : validator (setKey d0 COSA_VER_STAMP (.num now)) = true) :
    metaWrite ⟨canon, d0⟩ validator fs1 art2 true now =
      (.ok (⟨canon, setKey d0 COSA_VER_STAMP (.num now)⟩, canon),
        fsSet fs1 canon (setKey d0 COSA_VER_STAMP (.num now))) := by
  have hmm : merge_meta d0 d0 now =
      .ok (setKey d0 COSA_VER_STAMP (.num now)) :=
    merge_meta_self d0 gc now hgit
  have hwj : write_json fs1 canon d0
      (some (fun a b => merge_meta a b now)) =
      .ok (fsSet fs1 canon (setKey d0 COSA_VER_STAMP (.num now))) := by
    simp [write_json, hdisk, hmm, Bind.bind, Except.bind, pure, Except.pure]
  have hrd : metaRead ⟨canon, d0⟩ validator
      (fsSet fs1 canon (setKey d0 COSA_VER_STAMP (.num now))) =
      .ok ⟨canon, setKey d0 COSA_VER_STAMP (.num now)⟩ := by
    simp [metaRead, fsLookup_fsSet_self, hv2]
  simp [metaWrite, hv0, hwj, hrd]

/-- **C2** (amended): with delayed merge enabled,
`write(artifact_name="aws")` writes the re-stamped document to the
side-file `meta.aws.json` and leaves the canonical `meta.json` unchanged —
the object is re-read from the canonical file, DROPPING the staged content
from memory. A subsequent `write(final=True)` merges that re-read
in-memory document with the disk copy — it never reads `meta.aws.json` —
so the canonical file merely gets re-stamped and `get(["images","aws"])`
on a fresh read of `meta.json` still sees whatever `meta.json` held
before, not the staged value. -/
theorem delayed_write_stages_and_final_restamps
    (canon side : String) (staged d0 : JObj) (fs : FS)
    (validator : JObj → Bool) (gc : Option JValue) (art2 : Option String)
    (now1 now2 : Int)
    (hside : joinpath (dirname canon) ("meta." ++ "aws" ++ ".json") = side)
    (hnc : side ≠ canon)
    (hdel : truthyGet staged COSA_DELAYED_MERGE = true)
    (hv1 : validator staged = true)
    (hdisk : fsLookup fs canon = some d0)
    (hv0 : validator d0 = true)
    (hgit : gitCommit d0 = .ok gc)
    (hv2 : validator (setKey d0 COSA_VER_STAMP (.num now2)) = true) :
    metaWrite ⟨canon, staged⟩ validator fs (some "aws") false now1 =
      (.ok (⟨canon, d0⟩, side),
        fsSet fs side (setKey staged COSA_VER_STAMP (.num now1))) ∧
    fsLookup (fsSet fs side (setKey staged COSA_VER_STAMP (.num now1)))
      canon = some d0 ∧
    metaWrite ⟨canon, d0⟩ validator
        (fsSet fs side (setKey staged COSA_VER_STAMP (.num now1)))
        art2 true now2 =
      (.ok (⟨canon, setKey d0 COSA_VER_STAMP (.num now2)⟩, canon),
        fsSet (fsSet fs side (setKey staged COSA_VER_STAMP (.num now1)))
          canon (setKey d0 COSA_VER_STAMP (.num now2))) ∧
    fsLookup
      (fsSet (fsSet fs side (setKey staged COSA_VER_STAMP (.num now1)))
        canon (setKey d0 COSA_VER_STAMP (.num now2))) canon =
      some (setKey d0 COSA_VER_STAMP (.num now2)) ∧
    metaGet (setKey d0 COSA_VER_STAMP (.num now2)) ["images", "aws"] none =
      metaGet d0 ["images", "aws"] none := by
  have hlk : fsLookup
      (fsSet fs side (setKey staged COSA_VER_STAMP (.num now1))) canon =
      some d0 := by
    rw [fsLookup_fsSet_ne fs side canon _ hnc, hdisk]
  refine ⟨metaWrite_staging canon side staged d0 fs validator "aws" now1
      hside hnc hdel hv1 hdisk hv0,
    hlk,
    metaWrite_final canon d0 _ validator art2 gc now2 hlk hv0 hgit hv2,
    fsLookup_fsSet_self _ _ _, ?_⟩
  simp [metaGet, descend,
    lookupKey_setKey_ne d0 "images" COSA_VER_STAMP (.num now2) (by decide)]

/-- Canonical `meta.json` content of the delayed-merge scenario. -/
def c2d0 : JObj :=
  [("name", .str "fc"), (COSA_DELAYED_MERGE, .bool true),
   (COSA_VER_STAMP, .num 1)]

/-- The in-memory document with the staged AWS artifact added. -/
def c2staged : JObj :=
  [("name", .str "fc"), (COSA_DELAYED_MERGE, .bool true),
   (COSA_VER_STAMP, .num 1),
   ("images", .obj [("aws", .obj [("path", .str "img")])])]

/-- A schema that accepts everything (no validator configured). -/
def c2v : JObj → Bool := fun _ => true

def c2fs0 : FS := [("b/meta.json", c2d0)]

/-- The staging write `write(artifact_name="aws")`. -/
def c2step1 : Except WriteErr (Meta × String) × FS :=
  metaWrite ⟨"b/meta.json", c2staged⟩ c2v c2fs0 (some "aws") false 5

/-- The subsequent finalisation write `write(final=True)` on the object
`write` left behind (its document was re-read from `meta.json`). -/
def c2step2 : Except WriteErr (Meta × String) × FS :=
  metaWrite ⟨"b/meta.json", c2d0⟩ c2v c2step1.2 none true 9

/-- `c2d0` as re-stamped by the finalisation write. -/
def c2restamped : JObj :=
  [("name", .str "fc"), (COSA_DELAYED_MERGE, .bool true),
   (COSA_VER_STAMP, .num 9)]

/-- **C2** (counterexample): the staging write behaves as claimed (side
file written, `meta.json` untouched), but the subsequent
`write(final=True)` does NOT merge `meta.aws.json` into `meta.json`: the
canonical file ends up as `c2d0` merely re-stamped, and
`get(["images","aws"])` on a fresh read returns the default `none` instead
of the staged value. -/
theorem delayed_final_write_drops_staged_cex :
    c2step1.1 = .ok (⟨"b/meta.json", c2d0⟩, "b/meta.aws.json") ∧
    fsLookup c2step1.2 "b/meta.json" = some c2d0 ∧
    fsLookup c2step2.2 "b/meta.json" = some c2restamped ∧
    metaGet c2restamped ["images", "aws"] none = .ok none ∧
    metaGet c2staged ["images", "aws"] none =
      .ok (some (.obj [("path", .str "img")])) ∧
    ((Except.ok none : Except GetErr (Option JValue)) =
      .ok (some (.obj [("path", .str "img")])) → False) := by
  have h1 : c2step1 =
      (.ok (⟨"b/meta.json", c2d0⟩, "b/meta.aws.json"),
        fsSet c2fs0 "b/meta.aws.json"
          (setKey c2staged COSA_VER_STAMP (.num 5))) :=
    metaWrite_staging "b/meta.json" "b/meta.aws.json" c2staged c2d0 c2fs0
      c2v "aws" 5 rfl (by decide) rfl rfl rfl rfl
  have h2 : c2step2 =
      (.ok (⟨"b/meta.json", setKey c2d0 COSA_VER_STAMP (.num 9)⟩,
          "b/meta.json"),
        fsSet (fsSet c2fs0 "b/meta.aws.json"
            (setKey c2staged COSA_VER_STAMP (.num 5)))
          "b/meta.json" (setKey c2d0 COSA_VER_STAMP (.num 9))) := by
    rw [c2step2, h1]
    exact metaWrite_final "b/meta.json" c2d0 _ c2v none none 9 rfl rfl
      rfl rfl
  refine ⟨by rw [h1], by rw [h1]; rfl, by rw [h2]; rfl, rfl, rfl, by simp⟩

theorem delayed_write_stages_and_final_restamps_witness :
    metaWrite ⟨"b/meta.json", c2staged⟩ c2v c2fs0 (some "aws") false 5 =
      (.ok (⟨"b/meta.json", c2d0⟩, "b/meta.aws.json"),
        fsSet c2fs0 "b/meta.aws.json"
          (setKey c2staged COSA_VER_STAMP (.num 5))) ∧
    fsLookup (fsSet c2fs0 "b/meta.aws.json"
        (setKey c2staged COSA_VER_STAMP (.num 5))) "b/meta.json" =
      some c2d0 ∧
    metaWrite ⟨"b/meta.json", c2d0⟩ c2v
        (fsSet c2fs0 "b/meta.aws.json"
          (setKey c2staged COSA_VER_STAMP (.num 5))) none true 9 =
      (.ok (⟨"b/meta.json", setKey c2d0 COSA_VER_STAMP (.num 9)⟩,
          "b/meta.json"),
        fsSet (fsSet c2fs0 "b/meta.aws.json"
            (setKey c2staged COSA_VER_STAMP (.num 5)))
          "b/meta.json" (setKey c2d0 COSA_VER_STAMP (.num 9))) ∧
    fsLookup (fsSet (fsSet c2fs0 "b/meta.aws.json"
          (setKey c2staged COSA_VER_STAMP (.num 5)))
        "b/meta.json" (setKey c2d0 COSA_VER_STAMP (.num 9)))
      "b/meta.json" = some (setKey c2d0 COSA_VER_STAMP (.num 9)) ∧
    metaGet (setKey c2d0 COSA_VER_STAMP (.num 9)) ["images", "aws"] none =
      metaGet c2d0 ["images", "aws"] none :=
  delayed_write_stages_and_final_restamps "b/meta.json" "b/meta.aws.json"
    c2staged c2d0 c2fs0 c2v none none 5 9 rfl (by decide) rfl rfl rfl rfl
    rfl rfl

end Cosa
